import Mathlib

/-!
# BLIP-Cpp: reference counting (`vendor/utils/RefCounted.cc`) and actors (`src/util/Actor.hh`)

A shallow embedding of the two source files and the properties of the
specification that concern them.

* Machine state is passed explicitly.  A `RefCounted` value is the state of one
  object together with the effects an observer can see on it (how often its
  storage was reclaimed, how many diagnostics were printed for it).
* `abort()` terminates the process: code that can reach it returns `Option`, and
  `none` is the aborted process.
* `_refCount` is read into a C++ `int`; it is embedded as `Int`.  The destructor
  and `dealloc` only compare it with zero, so statements quantified over every
  `Int` cover every machine value.  Statements that count retains carry the
  bound under which a 32-bit `int` does not overflow.
-/

namespace litecore

/-! ## RefCounted.cc -/

/-- State of one `RefCounted` object and of what can be observed about it. -/
structure RefCounted where
  /-- The member `_refCount`. -/
  _refCount : Int
  /-- How many times `delete this` ran to completion on the object. -/
  deleted : Nat
  /-- How many `Warn(...)` diagnostics were emitted for the object.  Both `Warn`
  calls of RefCounted.cc are commented out, so no operation below adds to it. -/
  warnings : Nat
  deriving DecidableEq, Repr

/-- What a piece of code that may call `abort()` ends with. -/
inductive Outcome where
  | completed
  | aborted
  deriving DecidableEq, Repr

/-- The destructor `RefCounted::~RefCounted()`:
`if (_refCount > 0) { abort(); }` (the `Warn` before `abort()` is commented out). -/
def RefCounted.destructor (o : RefCounted) : Outcome :=
  if o._refCount > 0 then
    Outcome.aborted
  else
    Outcome.completed

/-- The statement `delete this`: runs the destructor and, when it returns,
reclaims the storage.  `none` when the destructor aborted the process. -/
def RefCounted.deleteThis (o : RefCounted) : Option RefCounted :=
  match o.destructor with
  | Outcome.aborted => none
  | Outcome.completed => some { o with deleted := o.deleted + 1 }

/-- The method `RefCounted::dealloc()`:
```
int newref = _refCount;
if (newref < 0)
//  Warn("RefCounted object at %p released too many times; refcount now %d", this, newref);
//  else
    delete this;
```
With the `Warn` call and the `else` commented out, `delete this` is the body of
the `if`. -/
def RefCounted.dealloc (o : RefCounted) : Option RefCounted :=
  let newref := o._refCount
  if newref < 0 then
    o.deleteThis
  else
    some o

/-- Modelled from the spec: `RefCounted::retain` (RefCounted.hh is not part of the
source tree).  Spec 4.1: "atomically increments the reference count; no failure
condition". -/
def RefCounted.retain (o : RefCounted) : RefCounted :=
  { o with _refCount := o._refCount + 1 }

/-- Modelled from the spec: `RefCounted::release` (RefCounted.hh is not part of the
source tree).  Spec 4.1: "atomically decrements the reference count"; the zero
transition and the double release (a count that was already non-positive) are
both handed to `dealloc`, that is, `dealloc` is called when the resulting count
is `<= 0`. -/
def RefCounted.release (o : RefCounted) : Option RefCounted :=
  let o1 : RefCounted := { o with _refCount := o._refCount - 1 }
  if o1._refCount ≤ 0 then
    o1.dealloc
  else
    some o1

/-- Modelled from the spec: a freshly constructed object.  Spec 3: the reference
count is "initialized to zero at construction". -/
def RefCounted.fresh : RefCounted :=
  { _refCount := 0, deleted := 0, warnings := 0 }

/-- Applies `retain` `n` times. -/
def RefCounted.retainN : Nat → RefCounted → RefCounted
  | 0, o => o
  | n + 1, o => RefCounted.retainN n o.retain

/-- Applies `release` `n` times, stopping when the process aborts. -/
def RefCounted.releaseN : Nat → RefCounted → Option RefCounted
  | 0, o => some o
  | n + 1, o => o.release.bind (RefCounted.releaseN n)

end litecore

namespace litecore.actor

/-! ## Actor.hh

Objects live in a heap indexed by their address; `this` is such an address.  The
state that the bodies of the scheduled methods and closures act on is kept in
the separate component `user`, of an arbitrary type `σ`: a work item
(`std::function<void()>`) is a function `σ → σ`.  `A` is the type of an argument
pack `Args...`, and `D` stands for `delay_t`, which is declared in
ThreadedMailbox.hh, outside the source tree. -/

/-- The address of an actor (the value of `this`). -/
abbrev ActorId := Nat

/-- Modelled from the spec: the `Mailbox` class (`ThreadedMailbox`, declared in
ThreadedMailbox.hh, is not part of the source tree).  Spec 3: "an internal queue
of pending work items (each a fully-bound, argument-captured invocation)".  The
items handed to `enqueueAfter` are kept apart with their delay, since the spec
gives them no order relative to the others.  The back-reference to the owning
actor is "non-owning" (spec 3, 9) and has no effect on the reference count. -/
structure Mailbox (σ D : Type) where
  /-- Items submitted by `enqueue`, oldest first. -/
  queue : List (σ → σ)
  /-- Items submitted by `enqueueAfter`, each with its delay. -/
  delayed : List (D × (σ → σ))

/-- Modelled from the spec: `Mailbox::enqueue`.  Spec 4.2: "appends a
fully-bound invocation (receiver + arguments already captured) to the queue". -/
def Mailbox.enqueue {σ D : Type} (m : Mailbox σ D) (f : σ → σ) : Mailbox σ D :=
  { m with queue := m.queue ++ [f] }

/-- Modelled from the spec: `Mailbox::enqueueAfter`.  Spec 4.2: "schedules a bound
invocation to become eligible for execution no earlier than `delay` after the
call". -/
def Mailbox.enqueueAfter {σ D : Type} (m : Mailbox σ D) (delay : D) (f : σ → σ) :
    Mailbox σ D :=
  { m with delayed := m.delayed ++ [(delay, f)] }

/-- The class `Actor : public RefCounted`, with its member `Mailbox _mailbox`. -/
structure Actor (σ D : Type) extends RefCounted where
  /-- The member `_mailbox`. -/
  _mailbox : Mailbox σ D

/-- The heap of actors and the state the work items act on. -/
structure World (σ D : Type) where
  /-- The actor stored at each address. -/
  actors : ActorId → Actor σ D
  /-- The state read and written by the bodies of work items. -/
  user : σ

/-- Replaces the mailbox of the actor at `this`. -/
def World.setMailbox {σ D : Type} (w : World σ D) (this : ActorId) (m : Mailbox σ D) :
    World σ D :=
  { w with actors := Function.update w.actors this { w.actors this with _mailbox := m } }

/-- Replaces the `RefCounted` part of the actor at `this`. -/
def World.setRefCounted {σ D : Type} (w : World σ D) (this : ActorId) (r : RefCounted) :
    World σ D :=
  { w with actors := Function.update w.actors this { w.actors this with toRefCounted := r } }

/-- The call `retain()` on the actor at `this`. -/
def World.retain {σ D : Type} (w : World σ D) (this : ActorId) : World σ D :=
  w.setRefCounted this (w.actors this).toRefCounted.retain

/-- The call `release()` on the actor at `this`. -/
def World.release {σ D : Type} (w : World σ D) (this : ActorId) : Option (World σ D) :=
  (w.actors this).toRefCounted.release.map (w.setRefCounted this)

/-- The definition `ACTOR_BIND_METHOD(RCVR, METHOD, ARGS)  std::bind(METHOD, RCVR, ARGS...)`:
the work item that, when run, calls `METHOD` on `RCVR` with `ARGS`. -/
def ACTOR_BIND_METHOD {σ A : Type} (rcvr : ActorId) (method : ActorId → A → σ → σ)
    (args : A) : σ → σ :=
  fun s => method rcvr args s

/-- The definition `ACTOR_BIND_FN(FN, ARGS)  std::bind(FN, ARGS...)`:
the work item that, when run, calls `FN` with `ARGS`. -/
def ACTOR_BIND_FN {σ A : Type} (fn : A → σ → σ) (args : A) : σ → σ :=
  fun s => fn args s

/-- The method `Actor::enqueue(fn, args...)`:
`_mailbox.enqueue(ACTOR_BIND_METHOD((Rcvr*)this, fn, args));` -/
def Actor.enqueue {σ D A : Type} (this : ActorId) (fn : ActorId → A → σ → σ) (args : A)
    (w : World σ D) : World σ D :=
  w.setMailbox this ((w.actors this)._mailbox.enqueue (ACTOR_BIND_METHOD this fn args))

/-- The method `Actor::enqueueAfter(delay, fn, args...)`:
`_mailbox.enqueueAfter(delay, ACTOR_BIND_METHOD((Rcvr*)this, fn, args));` -/
def Actor.enqueueAfter {σ D A : Type} (this : ActorId) (delay : D)
    (fn : ActorId → A → σ → σ) (args : A) (w : World σ D) : World σ D :=
  w.setMailbox this
    ((w.actors this)._mailbox.enqueueAfter delay (ACTOR_BIND_METHOD this fn args))

/-- The closure object returned by `_asynchronize`: the lambda
`[=](Args ...arg) mutable { ... }` with its two captures. -/
structure Wrapper (σ A : Type) where
  /-- The captured copy of `Retained<Actor> ret`. -/
  ret : ActorId
  /-- The captured copy of `fn`. -/
  fn : A → σ → σ

/-- The method `Actor::_asynchronize(fn)`:
```
Retained<Actor> ret(this);
return [=](Args ...arg) mutable { ret->_mailbox.enqueue(ACTOR_BIND_FN(fn, arg)); };
```
Modelled from the spec: `Retained<T>` (RefCounted.hh is not part of the source
tree) is the "owning reference": creating or copying one retains the object and
destroying one releases it.  The local `ret` retains, the capture by copy
retains, and the local `ret` is released when the function returns. -/
def Actor._asynchronize {σ D A : Type} (this : ActorId) (fn : A → σ → σ) (w : World σ D) :
    Option (Wrapper σ A × World σ D) :=
  let w1 := w.retain this
  let w2 := w1.retain this
  (w2.release this).map fun w3 => ({ ret := this, fn := fn }, w3)

/-- The method `Actor::asynchronize(t)`:
`decltype(get_fun_type(&T::operator())) fn = t; return _asynchronize(fn);` -/
def Actor.asynchronize {σ D A : Type} (this : ActorId) (t : A → σ → σ) (w : World σ D) :
    Option (Wrapper σ A × World σ D) :=
  let fn := t
  Actor._asynchronize this fn w

/-- A call of the closure returned by `_asynchronize`, with arguments `arg`:
`ret->_mailbox.enqueue(ACTOR_BIND_FN(fn, arg));` -/
def Wrapper.call {σ D A : Type} (f : Wrapper σ A) (arg : A) (w : World σ D) : World σ D :=
  w.setMailbox f.ret ((w.actors f.ret)._mailbox.enqueue (ACTOR_BIND_FN f.fn arg))

end litecore.actor

/-! ## Properties of RefCounted.cc -/

namespace litecore

theorem RefCounted.destructor_eq_aborted_iff (o : RefCounted) :
    o.destructor = Outcome.aborted ↔ 0 < o._refCount := by
  unfold RefCounted.destructor
  by_cases h : o._refCount > 0
  · simp [h]
  · simp [h]

theorem RefCounted.destructor_eq_completed_iff (o : RefCounted) :
    o.destructor = Outcome.completed ↔ o._refCount ≤ 0 := by
  unfold RefCounted.destructor
  by_cases h : o._refCount > 0
  · simp [h]
  · simp [h]
    omega

theorem RefCounted.deleteThis_of_nonpos (o : RefCounted) (h : o._refCount ≤ 0) :
    o.deleteThis = some { o with deleted := o.deleted + 1 } := by
  have hc : o.destructor = Outcome.completed := (o.destructor_eq_completed_iff).2 h
  simp [RefCounted.deleteThis, hc]

theorem RefCounted.dealloc_of_neg (o : RefCounted) (h : o._refCount < 0) :
    o.dealloc = some { o with deleted := o.deleted + 1 } := by
  have h0 : o._refCount ≤ 0 := by omega
  simp [RefCounted.dealloc, h, o.deleteThis_of_nonpos h0]

theorem RefCounted.dealloc_of_nonneg (o : RefCounted) (h : 0 ≤ o._refCount) :
    o.dealloc = some o := by
  have hn : ¬ o._refCount < 0 := by omega
  simp [RefCounted.dealloc, hn]

/-- What `release` returns, for every object: the count goes down by one, and the
object is deleted exactly when the new count is negative. -/
theorem RefCounted.release_eq (o : RefCounted) :
    o.release = some { _refCount := o._refCount - 1,
                       deleted := if o._refCount - 1 < 0 then o.deleted + 1 else o.deleted,
                       warnings := o.warnings } := by
  unfold RefCounted.release
  by_cases h1 : o._refCount - 1 ≤ 0
  · by_cases h2 : o._refCount - 1 < 0
    · simp [h1, h2, RefCounted.dealloc_of_neg]
    · have h3 : (0 : Int) ≤ o._refCount - 1 := by omega
      simp [h1, h2, RefCounted.dealloc_of_nonneg, h3]
  · have h2 : ¬ o._refCount - 1 < 0 := by omega
    simp [h1, h2]

theorem RefCounted.retainN_eq (n : Nat) (o : RefCounted) :
    o.retainN n = { o with _refCount := o._refCount + n } := by
  induction n generalizing o with
  | zero => simp [RefCounted.retainN]
  | succ k ih =>
    simp only [RefCounted.retainN, ih, RefCounted.retain]
    congr 1
    push_cast
    omega

/-- Releasing `k` references of an object that holds at least `k` never deletes it. -/
theorem RefCounted.releaseN_of_le (k : Nat) (o : RefCounted) (h : (k : Int) ≤ o._refCount) :
    o.releaseN k = some { o with _refCount := o._refCount - k } := by
  induction k generalizing o with
  | zero => simp [RefCounted.releaseN]
  | succ j ih =>
    have hj : ¬ o._refCount - 1 < 0 := by push_cast at h; omega
    simp only [RefCounted.releaseN, RefCounted.release_eq, hj, if_false, Option.some_bind]
    rw [ih]
    · congr 1
      simp only [RefCounted.mk.injEq, and_true]
      push_cast
      omega
    · simp only
      push_cast at h
      omega

theorem RefCounted.releaseN_succ (n : Nat) (o : RefCounted) :
    o.releaseN (n + 1) = (o.releaseN n).bind RefCounted.release := by
  induction n generalizing o with
  | zero => simp [RefCounted.releaseN]
  | succ k ih =>
    rw [RefCounted.releaseN, RefCounted.release_eq, Option.some_bind, ih]
    conv_rhs => rw [RefCounted.releaseN, RefCounted.release_eq, Option.some_bind]

/-- C1.  Evaluation of `dealloc` on an object whose reference count is exactly
zero, the state `release` leaves on the zero transition: `dealloc` returns with
the object untouched, `delete this` is not performed. -/
theorem dealloc_zero_count_not_deleted (d w : Nat) :
    RefCounted.dealloc ⟨0, d, w⟩ = some ⟨0, d, w⟩ := by
  exact RefCounted.dealloc_of_nonneg ⟨0, d, w⟩ (by simp)

/-- C2.  Evaluation of `dealloc` on an object whose reference count is negative
(a release too many): `delete this` is performed, `deleted` goes up by one, and
no diagnostic is emitted, `warnings` stays as it was. -/
theorem dealloc_negative_count_deleted (k d w : Nat) :
    RefCounted.dealloc ⟨-((k : Int) + 1), d, w⟩ = some ⟨-((k : Int) + 1), d + 1, w⟩ := by
  exact RefCounted.dealloc_of_neg ⟨-((k : Int) + 1), d, w⟩ (by simp only; omega)

/-- C3.  Evaluation of `n` retains followed by `n` releases on a fresh object,
for a number of retains that a C++ `int` can count: after the `n`-th release the
count is zero and the object has not been deleted; the release after that one
takes the count to `-1`, deletes the object and emits no diagnostic. -/
theorem retains_then_releases_delete_late (n : Nat) (_hn : n < 2 ^ 31) :
    (RefCounted.fresh.retainN n).releaseN n = some ⟨0, 0, 0⟩ ∧
    (RefCounted.fresh.retainN n).releaseN (n + 1) = some ⟨-1, 1, 0⟩ := by
  have h1 : (RefCounted.fresh.retainN n).releaseN n = some ⟨0, 0, 0⟩ := by
    rw [RefCounted.retainN_eq, RefCounted.releaseN_of_le]
    · simp [RefCounted.fresh]
    · simp [RefCounted.fresh]
  refine ⟨h1, ?_⟩
  rw [RefCounted.releaseN_succ, h1]
  decide

/-- C3 at the scenario of the spec, three retains and three releases: the object
is still there after the third release and is deleted by the fourth. -/
theorem retains_then_releases_delete_late_witness :
    3 < 2 ^ 31 ∧
    (RefCounted.fresh.retainN 3).releaseN 3 = some ⟨0, 0, 0⟩ ∧
    (RefCounted.fresh.retainN 3).releaseN (3 + 1) = some ⟨-1, 1, 0⟩ :=
  ⟨by decide, retains_then_releases_delete_late 3 (by decide)⟩

/-- C4.  The destructor run on an object whose reference count is greater than
zero aborts the process, and so does `delete` of such an object. -/
theorem destructor_aborts_of_positive (o : RefCounted) (h : 0 < o._refCount) :
    o.destructor = Outcome.aborted ∧ o.deleteThis = none := by
  have ha : o.destructor = Outcome.aborted := (o.destructor_eq_aborted_iff).2 h
  exact ⟨ha, by simp [RefCounted.deleteThis, ha]⟩

/-- C4 at an object with one reference left. -/
theorem destructor_aborts_of_positive_witness :
    (0 : Int) < (⟨1, 0, 0⟩ : RefCounted)._refCount ∧
    (RefCounted.destructor ⟨1, 0, 0⟩ = Outcome.aborted ∧
     RefCounted.deleteThis ⟨1, 0, 0⟩ = none) :=
  ⟨by decide, destructor_aborts_of_positive ⟨1, 0, 0⟩ (by decide)⟩

/-- C5 as stated fails at the count `-1`: there the destructor completes
normally although the count is not zero. -/
theorem destructor_completes_at_negative_count :
    ¬ (RefCounted.destructor ⟨-1, 0, 0⟩ = Outcome.completed ↔
       (⟨-1, 0, 0⟩ : RefCounted)._refCount = 0) := by
  decide

/-- C5, amended.  For every value of the reference count the destructor
completes normally if and only if the count is at most zero, and aborts the
process if and only if the count is greater than zero. -/
theorem destructor_completes_iff_nonpos (o : RefCounted) :
    (o.destructor = Outcome.completed ↔ o._refCount ≤ 0) ∧
    (o.destructor = Outcome.aborted ↔ 0 < o._refCount) :=
  ⟨o.destructor_eq_completed_iff, o.destructor_eq_aborted_iff⟩

/-- C10.  For every object, `dealloc` either reads a negative count, and then
deletes the object with the destructor running to completion, or reads a count
that is zero or more, and then does nothing.  It always returns, and the
reference count after it is the one before it. -/
theorem dealloc_deletes_iff_negative (o : RefCounted) :
    ((o._refCount < 0 ∧ o.destructor = Outcome.completed ∧
        o.dealloc = some { o with deleted := o.deleted + 1 }) ∨
     (0 ≤ o._refCount ∧ o.dealloc = some o)) ∧
    o.dealloc.map (fun r => r._refCount) = some o._refCount ∧
    o.dealloc.map (fun r => r.warnings) = some o.warnings := by
  by_cases h : o._refCount < 0
  · have hd := o.dealloc_of_neg h
    have hc : o.destructor = Outcome.completed :=
      (o.destructor_eq_completed_iff).2 (by omega)
    exact ⟨Or.inl ⟨h, hc, hd⟩, by simp [hd], by simp [hd]⟩
  · have h0 : 0 ≤ o._refCount := by omega
    have hd := o.dealloc_of_nonneg h0
    exact ⟨Or.inr ⟨h0, hd⟩, by simp [hd], by simp [hd]⟩

end litecore

/-! ## Properties of Actor.hh -/

namespace litecore.actor

variable {σ D A : Type}

theorem World.setRefCounted_self (w : World σ D) (this : ActorId) (r : RefCounted) :
    (w.setRefCounted this r).actors this = { w.actors this with toRefCounted := r } := by
  simp [World.setRefCounted]

theorem World.setRefCounted_other (w : World σ D) (this b : ActorId) (r : RefCounted)
    (h : b ≠ this) : (w.setRefCounted this r).actors b = w.actors b := by
  simp [World.setRefCounted, Function.update_noteq h]

theorem World.setRefCounted_twice (w : World σ D) (this : ActorId) (r1 r2 : RefCounted) :
    (w.setRefCounted this r1).setRefCounted this r2 = w.setRefCounted this r2 := by
  simp [World.setRefCounted]

theorem World.setMailbox_self (w : World σ D) (this : ActorId) (m : Mailbox σ D) :
    (w.setMailbox this m).actors this = { w.actors this with _mailbox := m } := by
  simp [World.setMailbox]

theorem World.setMailbox_other (w : World σ D) (this b : ActorId) (m : Mailbox σ D)
    (h : b ≠ this) : (w.setMailbox this m).actors b = w.actors b := by
  simp [World.setMailbox, Function.update_noteq h]

/-- What `release()` does to the heap: only the `RefCounted` part of the actor
at `this` changes, as `RefCounted.release_eq` says. -/
theorem World.release_heap_eq (w : World σ D) (this : ActorId) :
    w.release this = some (w.setRefCounted this
      { _refCount := (w.actors this)._refCount - 1,
        deleted := if (w.actors this)._refCount - 1 < 0 then (w.actors this).deleted + 1
                   else (w.actors this).deleted,
        warnings := (w.actors this).warnings }) := by
  simp [World.release, RefCounted.release_eq]

/-- What `_asynchronize` returns, for every heap: the closure holding `this` and
`fn`, and the heap in which the count of the actor went up by one. -/
theorem Actor._asynchronize_eq (this : ActorId) (fn : A → σ → σ) (w : World σ D) :
    Actor._asynchronize this fn w = some ({ ret := this, fn := fn },
      w.setRefCounted this
        { _refCount := (w.actors this)._refCount + 1,
          deleted := if (w.actors this)._refCount + 1 < 0 then (w.actors this).deleted + 1
                     else (w.actors this).deleted,
          warnings := (w.actors this).warnings }) := by
  simp only [Actor._asynchronize, World.release_heap_eq, World.retain, World.setRefCounted_self,
    World.setRefCounted_twice, RefCounted.retain, Option.map_some']
  congr 5
  · omega
  · have e : (w.actors this)._refCount + 1 + 1 - 1 = (w.actors this)._refCount + 1 := by omega
    rw [e]

/-- C7.  For every heap, actor, closure `fn` and arguments `args`:
`asynchronize(fn)` returns a wrapper without touching any mailbox or the state
the closures act on; a call of the wrapper with `args` leaves that state as it
is, so `fn` has not run, and changes the heap only by appending one item to the
`enqueue` queue of the mailbox of that actor; running the item is the call
`fn(args)`. -/
theorem asynchronize_call_defers_to_mailbox (w : World σ D) (this : ActorId)
    (fn : A → σ → σ) (args : A) :
    ∃ f w1 item, Actor.asynchronize this fn w = some (f, w1) ∧
      w1.user = w.user ∧
      (w1.actors this)._mailbox = (w.actors this)._mailbox ∧
      (f.call args w1).user = w1.user ∧
      (f.call args w1).actors this
        = { w1.actors this with _mailbox := (w1.actors this)._mailbox.enqueue item } ∧
      ((f.call args w1).actors this)._mailbox.queue
        = (w1.actors this)._mailbox.queue ++ [item] ∧
      ((f.call args w1).actors this)._mailbox.delayed = (w1.actors this)._mailbox.delayed ∧
      (∀ b, b ≠ this → (f.call args w1).actors b = w1.actors b) ∧
      (∀ s, item s = fn args s) := by
  refine ⟨_, _, ACTOR_BIND_FN fn args, Actor._asynchronize_eq this fn w,
    ?_, ?_, ?_, ?_, ?_, ?_, ?_, ?_⟩
  · simp [World.setRefCounted]
  · simp [World.setRefCounted_self]
  · simp [Wrapper.call, World.setMailbox]
  · simp [Wrapper.call, World.setMailbox_self]
  · simp [Wrapper.call, World.setMailbox_self, Mailbox.enqueue]
  · simp [Wrapper.call, World.setMailbox_self, Mailbox.enqueue]
  · intro b hb
    simp [Wrapper.call, World.setMailbox_other _ _ _ _ hb]
  · intro s
    rfl

/-- C8.  For every heap, actor, method, arguments and delay: `enqueue` changes
the heap only by appending one item to the `enqueue` queue of the mailbox of
that actor, `enqueueAfter` only by appending one item, with the delay it was
given, to the items submitted by `enqueueAfter`; neither changes the state the
methods act on, so the method has not run; running the item is the call of the
method on `this` with the given arguments. -/
theorem actor_enqueue_submits_bound_method (w : World σ D) (this : ActorId)
    (fn : ActorId → A → σ → σ) (args : A) (delay : D) :
    ∃ item, (∀ s, item s = fn this args s) ∧
      (Actor.enqueue this fn args w).actors this
        = { w.actors this with _mailbox := (w.actors this)._mailbox.enqueue item } ∧
      ((Actor.enqueue this fn args w).actors this)._mailbox.queue
        = (w.actors this)._mailbox.queue ++ [item] ∧
      ((Actor.enqueue this fn args w).actors this)._mailbox.delayed
        = (w.actors this)._mailbox.delayed ∧
      (Actor.enqueue this fn args w).user = w.user ∧
      (∀ b, b ≠ this → (Actor.enqueue this fn args w).actors b = w.actors b) ∧
      (Actor.enqueueAfter this delay fn args w).actors this
        = { w.actors this with
            _mailbox := (w.actors this)._mailbox.enqueueAfter delay item } ∧
      ((Actor.enqueueAfter this delay fn args w).actors this)._mailbox.delayed
        = (w.actors this)._mailbox.delayed ++ [(delay, item)] ∧
      ((Actor.enqueueAfter this delay fn args w).actors this)._mailbox.queue
        = (w.actors this)._mailbox.queue ∧
      (Actor.enqueueAfter this delay fn args w).user = w.user ∧
      (∀ b, b ≠ this → (Actor.enqueueAfter this delay fn args w).actors b = w.actors b) := by
  refine ⟨ACTOR_BIND_METHOD this fn args, fun s => rfl, ?_, ?_, ?_, ?_, ?_, ?_, ?_, ?_, ?_, ?_⟩
  · simp [Actor.enqueue, World.setMailbox_self]
  · simp [Actor.enqueue, World.setMailbox_self, Mailbox.enqueue]
  · simp [Actor.enqueue, World.setMailbox_self, Mailbox.enqueue]
  · simp [Actor.enqueue, World.setMailbox]
  · intro b hb
    simp [Actor.enqueue, World.setMailbox_other _ _ _ _ hb]
  · simp [Actor.enqueueAfter, World.setMailbox_self]
  · simp [Actor.enqueueAfter, World.setMailbox_self, Mailbox.enqueueAfter]
  · simp [Actor.enqueueAfter, World.setMailbox_self, Mailbox.enqueueAfter]
  · simp [Actor.enqueueAfter, World.setMailbox]
  · intro b hb
    simp [Actor.enqueueAfter, World.setMailbox_other _ _ _ _ hb]

end litecore.actor
